import Mathlib

/-!
Shallow embedding of the Ion call-site specialization engine
(`js/src/jit/MCallOptimize.cpp`): the per-native specializers that decide
whether a generic call can be replaced by an inline MIR instruction
subgraph, together with the instruction/stack emission each one performs.

Modelling conventions:
* MIR double values are represented by rationals (`Rat`); every comparison
  the specializers perform on them (equality with small literals, ordering
  against INT32 bounds) is order-faithful under this representation.
* External collaborators (type-inference queries, element-access
  classification, template-object sampling, bytecode inspection) are
  embedded as oracle fields of `Ctx` / `TypeSetInfo`, mirroring the
  consumed-interface contract of the engine.
* Graph emission is recorded as an ordered event trace (`EmitEvent`):
  `add n` appends instruction `n` to the current block, `push o` pushes a
  value onto the interpreter-visible stack.  Node operands reference
  either call arguments or previously added nodes by index.
-/

namespace MCallOptimize

/-- MIR value types (`MIRType` in the source). -/
inductive MIRType
  | Int32
  | Double
  | Float32
  | String
  | Boolean
  | Object
  | Undefined
  | Null
  | Symbol
  | Value
  | MagicT
  deriving DecidableEq, Repr

/-- `IsNumberType` from the source: Int32, Double or Float32. -/
def IsNumberType (t : MIRType) : Bool :=
  t = MIRType.Int32 || t = MIRType.Double || t = MIRType.Float32

/-- `IsFloatingPointType` from the source: Double or Float32. -/
def IsFloatingPointType (t : MIRType) : Bool :=
  t = MIRType.Double || t = MIRType.Float32

/-- Scalar element types of (shared) typed arrays (`Scalar::Type`).
`TypeMax` is the sentinel returned when a type-set does not resolve to a
unique typed-array element type. -/
inductive ScalarType
  | Int8
  | Uint8
  | Int16
  | Uint16
  | Int32
  | Uint32
  | Float32
  | Float64
  | Uint8Clamped
  | TypeMax
  deriving DecidableEq, Repr

/-- Object classes relevant to the embedded specializers (`js::Class`
identities; compared by pointer identity in the source, by constructor
identity here). -/
inductive ClassId
  | arrayObj
  | regexpObj
  | outlineTransparentTO
  | outlineOpaqueTO
  | inlineTransparentTO
  | inlineOpaqueTO
  | scalarTD
  | referenceTD
  | sizedArrayTD
  | unsizedArrayTD
  | otherClass (n : Nat)
  deriving DecidableEq, Repr

/-- A compile-time constant JS string: its character codes and whether the
string is linear (`JSString::isLinear`). -/
structure JSStr where
  chars : List Nat
  linear : Bool
  deriving DecidableEq, Repr

/-- A JS value as carried by an `MConstant`. Doubles are embedded as
rationals. -/
inductive JSVal
  | int32V (n : Int)
  | doubleV (q : Rat)
  | boolV (b : Bool)
  | strV (s : JSStr)
  | undefinedV
  deriving DecidableEq, Repr

/-- `Value::isNumber`. -/
def JSVal.isNumber : JSVal → Bool
  | .int32V _ => true
  | .doubleV _ => true
  | _ => false

/-- `Value::toNumber` / `Value::toDouble` on the numeric values; the
specializers only call it after an `isNumber`-style guard. -/
def JSVal.toNumber : JSVal → Rat
  | .int32V n => (n : Rat)
  | .doubleV q => q
  | _ => 0

/-- `Value::isString`. -/
def JSVal.isString : JSVal → Bool
  | .strV _ => true
  | _ => false

/-- `Value::isInt32`. -/
def JSVal.isInt32 : JSVal → Bool
  | .int32V _ => true
  | _ => false

/-- Element type tags stored in a heap type-set (the `JSID_VOID` property
type-set of an array type object). -/
inductive JSTypeTag
  | intTag
  | doubleTag
  | stringTag
  | boolTag
  | undefTag
  | nullTag
  | objTag (n : Nat)
  deriving DecidableEq, Repr

/-- `HeapTypeSetKey::knownSubset`: every type of the first set is present
in the second. -/
def knownSubset (a b : List JSTypeTag) : Bool :=
  a.all (fun t => b.contains t)

/-- The slice of a `types::TemporaryTypeSet` that the embedded
specializers query. -/
structure TypeSetInfo where
  /-- `getKnownClass()`; `none` models a null/unknown class. -/
  knownClass : Option ClassId := none
  /-- `hasObjectFlags(OBJECT_FLAG_SPARSE_INDEXES | OBJECT_FLAG_LENGTH_OVERFLOW)`. -/
  sparseOrOverflow : Bool := false
  /-- `hasObjectFlags(OBJECT_FLAG_NON_PACKED)`. -/
  nonPacked : Bool := false
  /-- `getSharedTypedArrayType()`; `TypeMax` when unresolved. -/
  sharedTypedArrayType : ScalarType := ScalarType.TypeMax
  /-- `getObject(i)` for `i < getObjectCount()`; `none` entries are null
  object keys that the loops skip. Type objects are identified by `Nat`
  keys. -/
  objects : List (Option Nat) := []
  deriving Repr

/-- `getObjectCount()`. -/
def TypeSetInfo.objectCount (ts : TypeSetInfo) : Nat := ts.objects.length

/-- An `MDefinition` as seen by a specializer: its MIR type, its constant
value when `isConstant()`, and its result type-set when present. -/
structure MDef where
  type : MIRType
  constVal : Option JSVal := none
  ts : Option TypeSetInfo := none

/-- `MDefinition::isConstant`. -/
def MDef.isConstant (d : MDef) : Bool := d.constVal.isSome

/-- The call-site descriptor (`CallInfo`). -/
structure CallInfo where
  thisArg : MDef
  args : List MDef
  constructing : Bool

/-- `CallInfo::argc`. -/
def CallInfo.argc (ci : CallInfo) : Nat := ci.args.length

/-- `CallInfo::getArg(i)`; out-of-range access is undefined in the source
and defaulted here (never exercised after the arity checks). -/
def CallInfo.getArg (ci : CallInfo) (i : Nat) : MDef :=
  ci.args.getD i { type := MIRType.Value }

/-- Reference to an SSA value: a call argument, the `this` argument, or a
previously emitted node (by emission index). -/
inductive Operand
  | arg (i : Nat)
  | thisA
  | node (j : Nat)
  deriving DecidableEq, Repr

/-- Instruction nodes produced by the embedded specializers. -/
inductive MNode
  | constantN (v : JSVal)
  | minmax (lhs rhs : Operand) (t : MIRType) (isMax : Bool)
  | limitedTruncate (op : Operand)
  | mul (lhs rhs : Operand) (t : MIRType)
  | powHalf (op : Operand)
  | divN (lhs rhs : Operand) (t : MIRType)
  | powN (base power : Operand) (t : MIRType)
  | toInt32 (op : Operand)
  | toDouble (op : Operand)
  | stringLength (op : Operand)
  | boundsCheck (index length : Operand)
  | charCodeAt (str index : Operand)
  | arrayJoinN (arr sep : Operand)
  | arraySpliceN (arr start deleteCount : Operand)
  | arrayConcatN (arr other : Operand)
  | hasClassN (op : Operand) (c : Option ClassId)
  | bitOr (lhs rhs : Operand)
  | notN (op : Operand)
  | storeDense (base : Nat)
  | storeTyped (base : Nat) (t : ScalarType)
  | storeTypedObject (base : Nat) (t : ScalarType)
  | typedArrayLengthAndData (obj index : Operand)
  | truncateToInt32 (op : Operand)
  | compareExchangeTA (elements index oldv newv : Operand) (t : ScalarType) (result : MIRType)
  | loadTA (elements index : Operand) (t : ScalarType) (result : MIRType)
  | storeTA (elements index value : Operand) (t : ScalarType)
  | atomicBinopTA (op : Nat) (elements index value : Operand) (t : ScalarType) (result : MIRType)
  deriving DecidableEq, Repr

/-- One emission step: `current->add(ins)` or `current->push(v)`. -/
inductive EmitEvent
  | add (n : MNode)
  | push (o : Operand)
  deriving DecidableEq, Repr

/-- The emission state threaded through a specializer: the event trace so
far and the number of nodes added (the next node index). -/
structure BState where
  events : List EmitEvent
  nAdds : Nat
  deriving DecidableEq, Repr

/-- The empty emission state (no instruction added, nothing pushed). -/
def BState.empty : BState := { events := [], nAdds := 0 }

/-- `current->add(ins)`: appends the node and returns its operand
reference. -/
def BState.add (s : BState) (n : MNode) : BState × Operand :=
  ({ events := s.events ++ [EmitEvent.add n], nAdds := s.nAdds + 1 },
   Operand.node s.nAdds)

/-- `current->push(v)`. -/
def BState.push (s : BState) (o : Operand) : BState :=
  { s with events := s.events ++ [EmitEvent.push o] }

/-- `IonBuilder::pushConstant(v)`: add an `MConstant` and push it. -/
def BState.pushConstant (s : BState) (v : JSVal) : BState :=
  let (s1, c) := s.add (MNode.constantN v)
  s1.push c

/-- `IonBuilder::InliningStatus`. -/
inductive InliningStatus
  | Error
  | NotInlined
  | Inlined
  deriving DecidableEq, Repr

/-- The compilation context consulted by the specializers: the expected
inline return type, bytecode facts, and the external element-access /
type-inference oracles. -/
structure Ctx where
  /-- `getInlineReturnType()`. -/
  retType : MIRType
  /-- `BytecodeIsPopped(pc)`: the call's result is discarded. -/
  bytecodeIsPopped : Bool := false
  /-- `ElementAccessIsDenseNative(obj, id)`. -/
  denseNative : MDef → MDef → Bool := fun _ _ => false
  /-- `PropertyWriteNeedsTypeBarrier(..., obj, ..., elem, ...)`. -/
  writeNeedsBarrier : MDef → MDef → Bool := fun _ _ => false
  /-- `ElementAccessIsAnyTypedArray(obj, id, &arrayType)`. -/
  anyTypedArray : MDef → MDef → Option ScalarType := fun _ _ => none
  /-- `elementAccessIsTypedObjectArrayOfScalarType(obj, id, &arrayType)`. -/
  typedObjectArray : MDef → MDef → Option ScalarType := fun _ _ => none
  /-- `types::ArrayPrototypeHasIndexedProperty(constraints, script)`. -/
  arrayProtoHasIndexed : Bool := false
  /-- `TypeObjectKey::unknownProperties()` for the type object keyed by `n`. -/
  unknownProps : Nat → Bool := fun _ => true
  /-- The `JSID_VOID` (element) heap type-set of the type object keyed by
  `n` (`TypeObjectKey::property(JSID_VOID)`). -/
  elemTypes : Nat → List JSTypeTag := fun _ => []
  /-- `getInlineReturnTypeSet()->hasType(ObjectType(thisType))`. -/
  resHasObjType : Nat → Bool := fun _ => false
  /-- `inspector->getTemplateObjectForNative(pc, js::array_concat)`:
  the template object's type-object key, when a template was sampled. -/
  concatTemplateType : Option Nat := none

/-- `IonBuilder::inlineArrayJoin` (the `Array.prototype.join`
specializer), translated line by line: note that its precondition
failures return `InliningStatus_Error`. -/
def inlineArrayJoin (ci : CallInfo) (ctx : Ctx) : InliningStatus × BState :=
  if ci.argc ≠ 1 || ci.constructing then (InliningStatus.Error, BState.empty)
  else if ctx.retType ≠ MIRType.String then (InliningStatus.Error, BState.empty)
  else if ci.thisArg.type ≠ MIRType.Object then (InliningStatus.Error, BState.empty)
  else if (ci.getArg 0).type ≠ MIRType.String then (InliningStatus.Error, BState.empty)
  else
    let (s1, ins) := BState.empty.add (MNode.arrayJoinN Operand.thisA (Operand.arg 0))
    (InliningStatus.Inlined, s1.push ins)

/-- `IonBuilder::inlineArraySplice`: requires exactly two int32 arguments,
a non-constructing call, object `this` and result, and a popped (unused)
call result; emits `MArraySplice` and pushes the constant undefined. -/
def inlineArraySplice (ci : CallInfo) (ctx : Ctx) : InliningStatus × BState :=
  if ci.argc ≠ 2 || ci.constructing then (InliningStatus.NotInlined, BState.empty)
  else if ctx.retType ≠ MIRType.Object then (InliningStatus.NotInlined, BState.empty)
  else if ci.thisArg.type ≠ MIRType.Object then (InliningStatus.NotInlined, BState.empty)
  else if (ci.getArg 0).type ≠ MIRType.Int32 then (InliningStatus.NotInlined, BState.empty)
  else if (ci.getArg 1).type ≠ MIRType.Int32 then (InliningStatus.NotInlined, BState.empty)
  else if !ctx.bytecodeIsPopped then (InliningStatus.NotInlined, BState.empty)
  else
    let (s1, _) := BState.empty.add
      (MNode.arraySpliceN Operand.thisA (Operand.arg 0) (Operand.arg 1))
    (InliningStatus.Inlined, s1.pushConstant JSVal.undefinedV)

/-- The Double/Float32 case of the `inlineMathMinMax` classification
switch: a constant already dominated by the relevant int32 bound
(`cte >= INT32_MAX` for min, `cte <= INT32_MIN` for max) leaves the
return type alone (the argument is a no-op for an integer min/max);
any other float argument forces the double domain. -/
def minMaxFloatRt (maxF : Bool) (a : MDef) (rt : MIRType) : MIRType :=
  if a.isConstant then
    if (a.constVal.getD JSVal.undefinedV).toNumber ≥ (2147483647 : Rat) && !maxF then rt
    else if (a.constVal.getD JSVal.undefinedV).toNumber ≤ (-2147483648 : Rat) && maxF then rt
    else MIRType.Double
  else MIRType.Double

/-- The argument-classification loop of `inlineMathMinMax`: walks the
arguments accumulating the indices of the int32-typed ones
(`int32_cases`) and the working return type; a non-numeric argument
aborts the specialization (`none`). -/
def minMaxScanArgs (maxF : Bool) :
    Nat → List MDef → List Nat → MIRType → Option (List Nat × MIRType)
  | _, [], int32cases, rt => some (int32cases, rt)
  | i, a :: rest, int32cases, rt =>
    match a.type with
    | MIRType.Int32 => minMaxScanArgs maxF (i + 1) rest (int32cases ++ [i]) rt
    | MIRType.Double => minMaxScanArgs maxF (i + 1) rest int32cases (minMaxFloatRt maxF a rt)
    | MIRType.Float32 => minMaxScanArgs maxF (i + 1) rest int32cases (minMaxFloatRt maxF a rt)
    | _ => none

/-- The chain loop of `inlineMathMinMax`
(`for (i = 2; i < cases.length(); i++)`): each iteration adds
`MMinMax::New(alloc(), last, cases[2], returnType, max)` — the right
operand is `cases[2]` on every iteration, exactly as in the source. -/
def minMaxChainLoop (maxF : Bool) (rt : MIRType) (c2 : Operand) :
    Nat → BState → Operand → BState × Operand
  | 0, st, last => (st, last)
  | k + 1, st, last =>
    let (st1, ins) := st.add (MNode.minmax last c2 rt maxF)
    minMaxChainLoop maxF rt c2 k st1 ins

/-- `IonBuilder::inlineMathMinMax` (`Math.min` / `Math.max`): classifies
the arguments into int32 and float domains, then emits either a single
truncation-preserving identity node or a chain of binary min/max
nodes over the chosen case list. -/
def inlineMathMinMax (ci : CallInfo) (ctx : Ctx) (maxF : Bool) : InliningStatus × BState :=
  if ci.argc < 1 || ci.constructing then (InliningStatus.NotInlined, BState.empty)
  else if !IsNumberType ctx.retType then (InliningStatus.NotInlined, BState.empty)
  else
    match minMaxScanArgs maxF 0 ci.args [] ctx.retType with
    | none => (InliningStatus.NotInlined, BState.empty)
    | some (int32cases, rt0) =>
      let rt := if int32cases.length = 0 then MIRType.Double else rt0
      let cases : List Operand :=
        if rt = MIRType.Int32 then int32cases.map Operand.arg
        else (List.range ci.argc).map Operand.arg
      if cases.length = 1 then
        let (s1, limit) := BState.empty.add
          (MNode.limitedTruncate (cases.getD 0 Operand.thisA))
        (InliningStatus.Inlined, s1.push limit)
      else
        let (s1, first) := BState.empty.add
          (MNode.minmax (cases.getD 0 Operand.thisA) (cases.getD 1 Operand.thisA) rt maxF)
        let (s2, last) :=
          minMaxChainLoop maxF rt (cases.getD 2 Operand.thisA) (cases.length - 2) s1 first
        (InliningStatus.Inlined, s2.push last)

/-- `IonBuilder::inlineMathPow` (`Math.pow`): special-cases the constant
exponents 0.5, -0.5, 1, 2, 3 and 4, falls back to a generic power node
otherwise, and casts the result to the declared output type only when
its type differs.  The MIR result types recorded alongside each output
(`output->type()` in the source) follow the MIR node constructors, which
are outside the excerpt; modelled from the spec: the square-root-with-
edge-case node, the division and the generic power node produce
floating-point (double) results, while the multiply nodes carry the
requested output type. -/
def inlineMathPow (ci : CallInfo) (ctx : Ctx) : InliningStatus × BState :=
  if ci.constructing then (InliningStatus.NotInlined, BState.empty)
  else if ci.argc ≠ 2 then (InliningStatus.NotInlined, BState.empty)
  else
    let baseType := (ci.getArg 0).type
    let powerType := (ci.getArg 1).type
    let outputType := ctx.retType
    if outputType ≠ MIRType.Int32 && outputType ≠ MIRType.Double then
      (InliningStatus.NotInlined, BState.empty)
    else if !IsNumberType baseType then (InliningStatus.NotInlined, BState.empty)
    else if !IsNumberType powerType then (InliningStatus.NotInlined, BState.empty)
    else
      let base := Operand.arg 0
      let power := Operand.arg 1
      let step1 : BState × Option (Operand × MIRType) :=
        if (ci.getArg 1).isConstant && ((ci.getArg 1).constVal.getD JSVal.undefinedV).isNumber then
          let p := ((ci.getArg 1).constVal.getD JSVal.undefinedV).toNumber
          if p = (1 / 2 : Rat) then
            let (s, half) := BState.empty.add (MNode.powHalf base)
            (s, some (half, MIRType.Double))
          else if p = (-(1 / 2) : Rat) then
            let (s1, half) := BState.empty.add (MNode.powHalf base)
            let (s2, one) := s1.add (MNode.constantN (JSVal.doubleV 1))
            let (s3, div) := s2.add (MNode.divN one half MIRType.Double)
            (s3, some (div, MIRType.Double))
          else if p = (1 : Rat) then (BState.empty, some (base, baseType))
          else if p = (2 : Rat) then
            let (s, m) := BState.empty.add (MNode.mul base base outputType)
            (s, some (m, outputType))
          else if p = (3 : Rat) then
            let (s1, m1) := BState.empty.add (MNode.mul base base outputType)
            let (s2, m2) := s1.add (MNode.mul base m1 outputType)
            (s2, some (m2, outputType))
          else if p = (4 : Rat) then
            let (s1, y) := BState.empty.add (MNode.mul base base outputType)
            let (s2, m) := s1.add (MNode.mul y y outputType)
            (s2, some (m, outputType))
          else (BState.empty, none)
        else (BState.empty, none)
      let step2 : BState × Operand × MIRType :=
        match step1 with
        | (st, some (o, t)) => (st, o, t)
        | (st, none) =>
          let pType := if powerType = MIRType.Float32 then MIRType.Double else powerType
          let (s, pw) := st.add (MNode.powN base power pType)
          (s, pw, MIRType.Double)
      let step3 : BState × Operand × MIRType :=
        let (st, o, t) := step2
        if outputType = MIRType.Int32 && t ≠ MIRType.Int32 then
          let (s, c) := st.add (MNode.toInt32 o)
          (s, c, MIRType.Int32)
        else (st, o, t)
      let step4 : BState × Operand :=
        let (st, o, t) := step3
        if outputType = MIRType.Double && t ≠ MIRType.Double then
          let (s, c) := st.add (MNode.toDouble o)
          (s, c)
        else (st, o)
      (InliningStatus.Inlined, step4.1.push step4.2)

/-- `IonBuilder::inlineConstantCharCodeAt`: when both the receiver string
and the index are compile-time constants, and the index is an in-bounds
int32 into a linear string, fold the access and emit a single int32
constant holding the character code. -/
def inlineConstantCharCodeAt (ci : CallInfo) : InliningStatus × BState :=
  if !ci.thisArg.isConstant then (InliningStatus.NotInlined, BState.empty)
  else if !(ci.getArg 0).isConstant then (InliningStatus.NotInlined, BState.empty)
  else
    let strval := ci.thisArg.constVal.getD JSVal.undefinedV
    let idxval := (ci.getArg 0).constVal.getD JSVal.undefinedV
    if !strval.isString || !idxval.isInt32 then (InliningStatus.NotInlined, BState.empty)
    else
      match strval, idxval with
      | JSVal.strV str, JSVal.int32V idx =>
        if !str.linear then (InliningStatus.NotInlined, BState.empty)
        else if idx < 0 || idx ≥ (str.chars.length : Int) then
          (InliningStatus.NotInlined, BState.empty)
        else
          let ch := str.chars.getD idx.toNat 0
          let (s1, res) := BState.empty.add (MNode.constantN (JSVal.int32V ch))
          (InliningStatus.Inlined, s1.push res)
      | _, _ => (InliningStatus.NotInlined, BState.empty)

/-- `IonBuilder::inlineStrCharCodeAt` (`String.prototype.charCodeAt`):
tries the constant-folding specialization first; on its `NotInlined` it
emits the general subgraph — index coercion, string length, an explicit
bounds check, then the character access. -/
def inlineStrCharCodeAt (ci : CallInfo) (ctx : Ctx) : InliningStatus × BState :=
  if ci.argc ≠ 1 || ci.constructing then (InliningStatus.NotInlined, BState.empty)
  else if ctx.retType ≠ MIRType.Int32 then (InliningStatus.NotInlined, BState.empty)
  else if ci.thisArg.type ≠ MIRType.String && ci.thisArg.type ≠ MIRType.Value then
    (InliningStatus.NotInlined, BState.empty)
  else if (ci.getArg 0).type ≠ MIRType.Int32 && (ci.getArg 0).type ≠ MIRType.Double then
    (InliningStatus.NotInlined, BState.empty)
  else
    let constStatus := inlineConstantCharCodeAt ci
    if constStatus.1 ≠ InliningStatus.NotInlined then constStatus
    else
      let (s1, index0) := BState.empty.add (MNode.toInt32 (Operand.arg 0))
      let (s2, length) := s1.add (MNode.stringLength Operand.thisA)
      let (s3, index) := s2.add (MNode.boundsCheck index0 length)
      let (s4, charCode) := s3.add (MNode.charCodeAt Operand.thisA index)
      (InliningStatus.Inlined, s4.push charCode)

/-- Validation of one 3-argument group of `inlineUnsafePutElements`: the
group must be a dense-array write needing no type barrier, a typed-array
write, or a typed-object-array write (the negation of the source's
combined rejection condition). -/
def unsafePutGroupOk (ci : CallInfo) (ctx : Ctx) (base : Nat) : Bool :=
  let obj := ci.getArg (base + 0)
  let id := ci.getArg (base + 1)
  let elem := ci.getArg (base + 2)
  let isDenseNative := ctx.denseNative obj id
  let barrier := isDenseNative && ctx.writeNeedsBarrier obj elem
  !((!isDenseNative || barrier)
      && (ctx.anyTypedArray obj id).isNone
      && (ctx.typedObjectArray obj id).isNone)

/-- The store-emission loop of `inlineUnsafePutElements`.  The helpers
`jsop_setelem_dense`, `jsop_setelem_typed` and
`jsop_setelem_typed_object` that build each store subgraph are outside
the excerpt; modelled from the spec: each group's store is emitted as a
single abstract store instruction of the matching kind. -/
def unsafePutStoreLoop (ci : CallInfo) (ctx : Ctx) : List Nat → BState → BState
  | [], st => st
  | b :: rest, st =>
    let obj := ci.getArg b
    let id := ci.getArg (b + 1)
    if ctx.denseNative obj id then
      unsafePutStoreLoop ci ctx rest (st.add (MNode.storeDense b)).1
    else
      match ctx.anyTypedArray obj id with
      | some t => unsafePutStoreLoop ci ctx rest (st.add (MNode.storeTyped b t)).1
      | none =>
        match ctx.typedObjectArray obj id with
        | some t => unsafePutStoreLoop ci ctx rest (st.add (MNode.storeTypedObject b t)).1
        | none => st

/-- `IonBuilder::inlineUnsafePutElements`: argument count must be a
non-zero multiple of 3; every 3-argument group is validated before any
instruction is emitted; on commit the undefined result placeholder is
pushed before the per-group stores are added, so value-stack depth is
consistent for mid-sequence bailouts. -/
def inlineUnsafePutElements (ci : CallInfo) (ctx : Ctx) : InliningStatus × BState :=
  if ci.argc < 3 || ci.argc % 3 ≠ 0 || ci.constructing then
    (InliningStatus.NotInlined, BState.empty)
  else if !((List.range (ci.argc / 3)).all fun g => unsafePutGroupOk ci ctx (3 * g)) then
    (InliningStatus.NotInlined, BState.empty)
  else
    (InliningStatus.Inlined,
     unsafePutStoreLoop ci ctx ((List.range (ci.argc / 3)).map (fun g => 3 * g))
       (BState.empty.pushConstant JSVal.undefinedV))

/-- `IonBuilder::atomicsMeetsPreconditions`: the receiver must be an
object with an int32 index whose type-set resolves to a shared
typed-array element type in the allow-list — Int8, Uint8, Int16, Uint16
or Int32 paired with an int32 inline return type, or Uint32 paired with
a double inline return type.  Returns the element type on success
(the `*arrayType` out-parameter). -/
def atomicsMeetsPreconditions (ci : CallInfo) (ctx : Ctx) : Option ScalarType :=
  if (ci.getArg 0).type ≠ MIRType.Object then none
  else if (ci.getArg 1).type ≠ MIRType.Int32 then none
  else
    match (ci.getArg 0).ts with
    | none => none
    | some arg0Types =>
      let arrayType := arg0Types.sharedTypedArrayType
      match arrayType with
      | ScalarType.Int8 | ScalarType.Uint8 | ScalarType.Int16
      | ScalarType.Uint16 | ScalarType.Int32 =>
        if ctx.retType = MIRType.Int32 then some arrayType else none
      | ScalarType.Uint32 =>
        if ctx.retType = MIRType.Double then some arrayType else none
      | _ => none

/-- `IonBuilder::atomicsCheckBounds`: bounds checking and extraction of
the elements vector via `addTypedArrayLengthAndData`, which lives
outside the excerpt; modelled from the spec: the shared bounds-check and
element-pointer computation is emitted as one abstract instruction whose
output is the elements vector, the index operand being the second call
argument. -/
def atomicsCheckBounds (st : BState) : BState × Operand × Operand :=
  let (s1, elements) := st.add (MNode.typedArrayLengthAndData (Operand.arg 0) (Operand.arg 1))
  (s1, elements, Operand.arg 1)

/-- `IonBuilder::inlineAtomicsCompareExchange` (`Atomics.compareExchange`):
four arguments, atomics preconditions, int32-or-double old and new
values; emits the shared bounds check, truncations for double-typed
values, and the compare-exchange instruction tagged with the inline
return type. -/
def inlineAtomicsCompareExchange (ci : CallInfo) (ctx : Ctx) : InliningStatus × BState :=
  if ci.argc ≠ 4 || ci.constructing then (InliningStatus.NotInlined, BState.empty)
  else
    match atomicsMeetsPreconditions ci ctx with
    | none => (InliningStatus.NotInlined, BState.empty)
    | some arrayType =>
      let oldval := ci.getArg 2
      if !(oldval.type = MIRType.Int32 || oldval.type = MIRType.Double) then
        (InliningStatus.NotInlined, BState.empty)
      else
        let newval := ci.getArg 3
        if !(newval.type = MIRType.Int32 || newval.type = MIRType.Double) then
          (InliningStatus.NotInlined, BState.empty)
        else
          let (s1, elements, index) := atomicsCheckBounds BState.empty
          let step2 : BState × Operand :=
            if oldval.type = MIRType.Double then s1.add (MNode.truncateToInt32 (Operand.arg 2))
            else (s1, Operand.arg 2)
          let step3 : BState × Operand :=
            if newval.type = MIRType.Double then step2.1.add (MNode.truncateToInt32 (Operand.arg 3))
            else (step2.1, Operand.arg 3)
          let (s4, cas) := step3.1.add
            (MNode.compareExchangeTA elements index step2.2 step3.2 arrayType ctx.retType)
          (InliningStatus.Inlined, s4.push cas)

/-- `IonBuilder::inlineAtomicsLoad` (`Atomics.load`): two arguments and
the atomics preconditions; emits the shared bounds check and a
memory-barriered element load carrying the inline return type. -/
def inlineAtomicsLoad (ci : CallInfo) (ctx : Ctx) : InliningStatus × BState :=
  if ci.argc ≠ 2 || ci.constructing then (InliningStatus.NotInlined, BState.empty)
  else
    match atomicsMeetsPreconditions ci ctx with
    | none => (InliningStatus.NotInlined, BState.empty)
    | some arrayType =>
      let (s1, elements, index) := atomicsCheckBounds BState.empty
      let (s2, load) := s1.add (MNode.loadTA elements index arrayType ctx.retType)
      (InliningStatus.Inlined, s2.push load)

/-- `IonBuilder::inlineAtomicsStore` (`Atomics.store`): three arguments,
the atomics preconditions and an int32-or-double value; emits the shared
bounds check, a truncation for a double-typed value, the barriered store,
and pushes the original value. -/
def inlineAtomicsStore (ci : CallInfo) (ctx : Ctx) : InliningStatus × BState :=
  if ci.argc ≠ 3 || ci.constructing then (InliningStatus.NotInlined, BState.empty)
  else
    match atomicsMeetsPreconditions ci ctx with
    | none => (InliningStatus.NotInlined, BState.empty)
    | some arrayType =>
      let value := ci.getArg 2
      if !(value.type = MIRType.Int32 || value.type = MIRType.Double) then
        (InliningStatus.NotInlined, BState.empty)
      else
        let (s1, elements, index) := atomicsCheckBounds BState.empty
        let step2 : BState × Operand :=
          if value.type = MIRType.Double then s1.add (MNode.truncateToInt32 (Operand.arg 2))
          else (s1, Operand.arg 2)
        let (s3, _) := step2.1.add (MNode.storeTA elements index step2.2 arrayType)
        (InliningStatus.Inlined, s3.push (Operand.arg 2))

/-- `IonBuilder::inlineAtomicsBinop` (`Atomics.add/sub/and/or/xor`):
three arguments, the atomics preconditions and an int32-or-double value;
emits the shared bounds check, a truncation for a double-typed value and
the fetch-binop instruction.  The atomic operation selected from the
callee identity is abstracted as a numeric tag. -/
def inlineAtomicsBinop (ci : CallInfo) (ctx : Ctx) (op : Nat) : InliningStatus × BState :=
  if ci.argc ≠ 3 || ci.constructing then (InliningStatus.NotInlined, BState.empty)
  else
    match atomicsMeetsPreconditions ci ctx with
    | none => (InliningStatus.NotInlined, BState.empty)
    | some arrayType =>
      let value := ci.getArg 2
      if !(value.type = MIRType.Int32 || value.type = MIRType.Double) then
        (InliningStatus.NotInlined, BState.empty)
      else
        let (s1, elements, index) := atomicsCheckBounds BState.empty
        let step2 : BState × Operand :=
          if value.type = MIRType.Double then s1.add (MNode.truncateToInt32 (Operand.arg 2))
          else (s1, Operand.arg 2)
        let (s3, binop) := step2.1.add
          (MNode.atomicBinopTA op elements index step2.2 arrayType ctx.retType)
        (InliningStatus.Inlined, s3.push binop)

/-- `IonBuilder::inlineArrayConcat` (`Array.prototype.concat`): both
operands must be known dense non-sparse arrays, the receiver's type-set
must hold a single type object with known properties, every element type
of each argument type object must already be contained in the receiver's
element type-set, and the sampled template object must match the
receiver's type; then a single array-concat instruction is emitted. -/
def inlineArrayConcat (ci : CallInfo) (ctx : Ctx) : InliningStatus × BState :=
  if ci.argc ≠ 1 || ci.constructing then (InliningStatus.NotInlined, BState.empty)
  else if ctx.retType ≠ MIRType.Object then (InliningStatus.NotInlined, BState.empty)
  else if ci.thisArg.type ≠ MIRType.Object then (InliningStatus.NotInlined, BState.empty)
  else if (ci.getArg 0).type ≠ MIRType.Object then (InliningStatus.NotInlined, BState.empty)
  else
    match ci.thisArg.ts, (ci.getArg 0).ts with
    | some thisTypes, some argTypes =>
      if thisTypes.knownClass ≠ some ClassId.arrayObj then (InliningStatus.NotInlined, BState.empty)
      else if thisTypes.sparseOrOverflow then (InliningStatus.NotInlined, BState.empty)
      else if argTypes.knownClass ≠ some ClassId.arrayObj then (InliningStatus.NotInlined, BState.empty)
      else if argTypes.sparseOrOverflow then (InliningStatus.NotInlined, BState.empty)
      else if ctx.arrayProtoHasIndexed then (InliningStatus.NotInlined, BState.empty)
      else if thisTypes.objectCount ≠ 1 then (InliningStatus.NotInlined, BState.empty)
      else
        match thisTypes.objects.getD 0 none with
        | none => (InliningStatus.NotInlined, BState.empty)
        | some baseThisType =>
          if ctx.unknownProps baseThisType then (InliningStatus.NotInlined, BState.empty)
          else if !thisTypes.nonPacked && argTypes.nonPacked then
            (InliningStatus.NotInlined, BState.empty)
          else
            let thisElemTypes := ctx.elemTypes baseThisType
            if !ctx.resHasObjType baseThisType then (InliningStatus.NotInlined, BState.empty)
            else if !(argTypes.objects.all fun argType? =>
                match argType? with
                | none => true
                | some argType =>
                  !(ctx.unknownProps argType)
                    && knownSubset (ctx.elemTypes argType) thisElemTypes) then
              (InliningStatus.NotInlined, BState.empty)
            else
              match ctx.concatTemplateType with
              | none => (InliningStatus.NotInlined, BState.empty)
              | some tmplType =>
                if tmplType ≠ baseThisType then (InliningStatus.NotInlined, BState.empty)
                else
                  let (s1, ins) := BState.empty.add
                    (MNode.arrayConcatN Operand.thisA (Operand.arg 0))
                  (InliningStatus.Inlined, s1.push ins)
    | _, _ => (InliningStatus.NotInlined, BState.empty)

/-- One iteration of the remaining-class loop of `inlineHasClass`: add a
class-check node for the candidate (possibly a null class slot) and OR
it onto the accumulated result. -/
def hasClassStep (acc : BState × Operand) (c : Option ClassId) : BState × Operand :=
  let (st, last) := acc
  let (st1, hasClass) := st.add (MNode.hasClassN (Operand.arg 0) c)
  let (st2, either) := st1.add (MNode.bitOr last hasClass)
  (st2, either)

/-- `IonBuilder::inlineHasClass` (the shared up-to-four-candidate class
predicate specializer): with a statically known argument class it pushes
a boolean constant recording membership in the candidate list; otherwise
it emits runtime class checks ORed together and canonicalized with a
double negation. -/
def inlineHasClass (ci : CallInfo) (ctx : Ctx)
    (clasp1 : ClassId) (clasp2 clasp3 clasp4 : Option ClassId) : InliningStatus × BState :=
  if ci.constructing || ci.argc ≠ 1 then (InliningStatus.NotInlined, BState.empty)
  else if (ci.getArg 0).type ≠ MIRType.Object then (InliningStatus.NotInlined, BState.empty)
  else if ctx.retType ≠ MIRType.Boolean then (InliningStatus.NotInlined, BState.empty)
  else
    let knownClass : Option ClassId :=
      match (ci.getArg 0).ts with
      | some t => t.knownClass
      | none => none
    match knownClass with
    | some k =>
      (InliningStatus.Inlined,
       BState.empty.pushConstant (JSVal.boolV
         (k = clasp1 || some k = clasp2 || some k = clasp3 || some k = clasp4)))
    | none =>
      let (s1, hasClass1) := BState.empty.add (MNode.hasClassN (Operand.arg 0) (some clasp1))
      if clasp2.isNone && clasp3.isNone && clasp4.isNone then
        (InliningStatus.Inlined, s1.push hasClass1)
      else
        let (s2, last) := [clasp2, clasp3, clasp4].foldl hasClassStep (s1, hasClass1)
        let (s3, inverted) := s2.add (MNode.notN last)
        let (s4, result) := s3.add (MNode.notN inverted)
        (InliningStatus.Inlined, s4.push result)

/-- Whether an emission event adds one of the per-group store
instructions of `inlineUnsafePutElements`. -/
def EmitEvent.isStoreAdd : EmitEvent → Bool
  | EmitEvent.add (MNode.storeDense _) => true
  | EmitEvent.add (MNode.storeTyped _ _) => true
  | EmitEvent.add (MNode.storeTypedObject _ _) => true
  | _ => false

/-! ## Helper lemmas -/

/-- The store-emission loop only appends store instructions to the
emission trace: everything present before it runs is preserved as a
prefix. -/
theorem unsafePutStoreLoop_events (ci : CallInfo) (ctx : Ctx) :
    ∀ (bases : List Nat) (st : BState),
      ∃ rest, (unsafePutStoreLoop ci ctx bases st).events = st.events ++ rest ∧
        ∀ e ∈ rest, EmitEvent.isStoreAdd e = true := by
  intro bases
  induction bases with
  | nil => intro st; exact ⟨[], by simp [unsafePutStoreLoop]⟩
  | cons b bs ih =>
    intro st
    unfold unsafePutStoreLoop
    by_cases hd : ctx.denseNative (ci.getArg b) (ci.getArg (b + 1))
    · rcases ih (st.add (MNode.storeDense b)).1 with ⟨rest, hr, hall⟩
      simp only [BState.add] at hr
      refine ⟨EmitEvent.add (MNode.storeDense b) :: rest, ?_, ?_⟩
      · simp [hd, BState.add, hr]
      · intro e he
        rcases List.mem_cons.mp he with he | he
        · subst he; rfl
        · exact hall e he
    · rcases hta : ctx.anyTypedArray (ci.getArg b) (ci.getArg (b + 1)) with _ | t
      · rcases htoa : ctx.typedObjectArray (ci.getArg b) (ci.getArg (b + 1)) with _ | t
        · exact ⟨[], by simp [hd, hta, htoa]⟩
        · rcases ih (st.add (MNode.storeTypedObject b t)).1 with ⟨rest, hr, hall⟩
          simp only [BState.add] at hr
          refine ⟨EmitEvent.add (MNode.storeTypedObject b t) :: rest, ?_, ?_⟩
          · simp [hd, hta, htoa, BState.add, hr]
          · intro e he
            rcases List.mem_cons.mp he with he | he
            · subst he; rfl
            · exact hall e he
      · rcases ih (st.add (MNode.storeTyped b t)).1 with ⟨rest, hr, hall⟩
        simp only [BState.add] at hr
        refine ⟨EmitEvent.add (MNode.storeTyped b t) :: rest, ?_, ?_⟩
        · simp [hd, hta, BState.add, hr]
        · intro e he
          rcases List.mem_cons.mp he with he | he
          · subst he; rfl
          · exact hall e he

/-- A float argument already classified in the double domain keeps the
return type at double. -/
theorem minMaxFloatRt_double (maxF : Bool) (a : MDef) :
    minMaxFloatRt maxF a MIRType.Double = MIRType.Double := by
  unfold minMaxFloatRt
  split_ifs <;> rfl

/-- Once the min/max classification loop has forced the double domain,
the remaining arguments cannot undo it. -/
theorem minMaxScanArgs_double_sticky (maxF : Bool) :
    ∀ (l : List MDef) (i : Nat) (acc : List Nat) (res : List Nat × MIRType),
      minMaxScanArgs maxF i l acc MIRType.Double = some res → res.2 = MIRType.Double := by
  intro l
  induction l with
  | nil =>
    intro i acc res h
    simp [minMaxScanArgs] at h
    simp [← h]
  | cons a rest ih =>
    intro i acc res h
    unfold minMaxScanArgs at h
    rcases hty : a.type <;> rw [hty] at h <;> dsimp only at h <;>
      first
        | exact ih _ _ _ h
        | (rw [minMaxFloatRt_double] at h; exact ih _ _ _ h)
        | exact absurd h (by simp)

/-- A float argument that is not a constant dominated by the relevant
int32 bound classifies to the double domain whatever return type it is
given. -/
theorem minMaxFloatRt_forced (maxF : Bool) (a : MDef)
    (hnd : a.isConstant = false ∨
      (¬((a.constVal.getD JSVal.undefinedV).toNumber ≥ 2147483647 ∧ maxF = false) ∧
       ¬((a.constVal.getD JSVal.undefinedV).toNumber ≤ -2147483648 ∧ maxF = true))) :
    ∀ rt, minMaxFloatRt maxF a rt = MIRType.Double := by
  intro rt
  unfold minMaxFloatRt
  rcases hnd with h | ⟨h1, h2⟩
  · simp [h]
  · split_ifs with hc hg hl
    · rw [Bool.and_eq_true, decide_eq_true_eq, Bool.not_eq_true'] at hg
      exact absurd hg h1
    · rw [Bool.and_eq_true, decide_eq_true_eq] at hl
      exact absurd ⟨hl.1, hl.2⟩ h2
    · rfl
    · rfl

/-- If any float-typed argument of the classification loop is not a
dominated constant, the whole loop ends in the double domain. -/
theorem minMaxScanArgs_float_forces (maxF : Bool) (a : MDef)
    (hf : a.type = MIRType.Double ∨ a.type = MIRType.Float32)
    (hnd : ∀ rt, minMaxFloatRt maxF a rt = MIRType.Double) :
    ∀ (l : List MDef), a ∈ l →
      ∀ (i : Nat) (acc : List Nat) (rt : MIRType) (res : List Nat × MIRType),
        minMaxScanArgs maxF i l acc rt = some res → res.2 = MIRType.Double := by
  intro l
  induction l with
  | nil => intro hmem; simp at hmem
  | cons b rest ih =>
    intro hmem i acc rt res h
    rcases List.mem_cons.mp hmem with hb | hmem
    · subst hb
      unfold minMaxScanArgs at h
      rcases hf with hty | hty <;> rw [hty] at h <;> dsimp only at h <;>
        (rw [hnd] at h; exact minMaxScanArgs_double_sticky maxF _ _ _ _ h)
    · unfold minMaxScanArgs at h
      rcases hty : b.type <;> rw [hty] at h <;> dsimp only at h <;>
        first
          | exact ih hmem _ _ _ _ h
          | exact absurd h (by simp)

/-! ## Theorems -/

/-- C1: the claim states that every pre-commit precondition failure in a
specializer — `inlineArrayJoin` included — yields `NotInlined`, never
`Error`.  The code violates this: `inlineArrayJoin` returns
`InliningStatus_Error` from its precondition checks.  Evaluated here at
a wrong-arity call site (two string arguments instead of one): the
status is `Error` (though the instruction graph is indeed unchanged). -/
theorem arrayJoin_precondition_failure_returns_error :
    inlineArrayJoin
      { thisArg := { type := MIRType.Object },
        args := [{ type := MIRType.String }, { type := MIRType.String }],
        constructing := false }
      { retType := MIRType.String }
      = (InliningStatus.Error, BState.empty) := by
  rfl

/-- C2: the claim states that the min/max chain combines each subsequent
node with the next operand in argument order.  The code instead emits
`MMinMax::New(alloc(), last, cases[2], returnType, max)` inside the
chain loop, so every node after the first reuses operand 2.  Evaluated
at a `Math.min` call with four int32 arguments: the third chain node
combines the previous node with operand 2 (not operand 3), and operand 3
never appears in the emitted subgraph. -/
theorem minmax_chain_repeats_operand_two :
    (inlineMathMinMax
      { thisArg := { type := MIRType.Object },
        args := [{ type := MIRType.Int32 }, { type := MIRType.Int32 },
                 { type := MIRType.Int32 }, { type := MIRType.Int32 }],
        constructing := false }
      { retType := MIRType.Int32 } false).2.events
      = [EmitEvent.add (MNode.minmax (Operand.arg 0) (Operand.arg 1) MIRType.Int32 false),
         EmitEvent.add (MNode.minmax (Operand.node 0) (Operand.arg 2) MIRType.Int32 false),
         EmitEvent.add (MNode.minmax (Operand.node 1) (Operand.arg 2) MIRType.Int32 false),
         EmitEvent.push (Operand.node 2)] := by
  rfl

/-- C7 counterexample: the claim asserts that for `min` with arguments
`[int32, constant 100000000.0]` the float constant is dropped (calling
`100000000.0` a constant `>= INT32_MAX`).  But `100000000 < 2147483647`,
so the code does not drop it: it forces the double domain and emits a
binary min node over both operands — not the claimed single
truncation-preserving identity node. -/
theorem minmax_hundred_million_not_dropped :
    (inlineMathMinMax
      { thisArg := { type := MIRType.Object },
        args := [{ type := MIRType.Int32 },
                 { type := MIRType.Double, constVal := some (JSVal.doubleV 100000000) }],
        constructing := false }
      { retType := MIRType.Int32 } false).2.events
      = [EmitEvent.add (MNode.minmax (Operand.arg 0) (Operand.arg 1) MIRType.Double false),
         EmitEvent.push (Operand.node 0)]
    ∧ (inlineMathMinMax
      { thisArg := { type := MIRType.Object },
        args := [{ type := MIRType.Int32 },
                 { type := MIRType.Double, constVal := some (JSVal.doubleV 100000000) }],
        constructing := false }
      { retType := MIRType.Int32 } false).2.events
      ≠ [EmitEvent.add (MNode.limitedTruncate (Operand.arg 0)),
         EmitEvent.push (Operand.node 0)] := by
  exact ⟨rfl, by decide⟩

/-- C3: `UnsafePutElements` requires a non-zero multiple-of-3 argument
count (otherwise `NotInlined` with no instruction emitted), validates
every 3-argument group before any instruction is emitted (an invalid
group yields `NotInlined` with the graph unchanged), and on the commit
path pushes the undefined result placeholder before any store
instruction of any group is added. -/
theorem unsafePutElements_validation_and_commit_order :
    (∀ (ci : CallInfo) (ctx : Ctx),
      ci.argc = 0 ∨ ci.argc % 3 ≠ 0 →
      inlineUnsafePutElements ci ctx = (InliningStatus.NotInlined, BState.empty)) ∧
    (∀ (ci : CallInfo) (ctx : Ctx),
      ((List.range (ci.argc / 3)).all fun g => unsafePutGroupOk ci ctx (3 * g)) = false →
      inlineUnsafePutElements ci ctx = (InliningStatus.NotInlined, BState.empty)) ∧
    (∀ (ci : CallInfo) (ctx : Ctx),
      (inlineUnsafePutElements ci ctx).1 = InliningStatus.Inlined →
      ∃ rest,
        (inlineUnsafePutElements ci ctx).2.events =
          EmitEvent.add (MNode.constantN JSVal.undefinedV)
            :: EmitEvent.push (Operand.node 0) :: rest ∧
        ∀ e ∈ rest, EmitEvent.isStoreAdd e = true) := by
  refine ⟨?_, ?_, ?_⟩
  · intro ci ctx h
    rcases h with h | h
    · simp [inlineUnsafePutElements, h]
    · unfold inlineUnsafePutElements
      split_ifs with h1 h2 <;> simp_all
  · intro ci ctx h
    unfold inlineUnsafePutElements
    split_ifs with h1 h2 <;> simp_all
  · intro ci ctx h
    unfold inlineUnsafePutElements at h ⊢
    split_ifs at h ⊢ with h1 h2
    rcases unsafePutStoreLoop_events ci ctx
      ((List.range (ci.argc / 3)).map (fun g => 3 * g))
      (BState.empty.pushConstant JSVal.undefinedV) with ⟨rest, hr, hall⟩
    refine ⟨rest, ?_, hall⟩
    simpa [BState.pushConstant, BState.add, BState.push, BState.empty] using hr

/-- C3 witness: the three parts applied at concrete call sites — a
1-argument call (bad arity), a 3-argument call whose group fails
classification, and a 3-argument dense-array call that commits. -/
theorem unsafePutElements_validation_and_commit_order_witness :
    inlineUnsafePutElements
      { thisArg := { type := MIRType.Object }, args := [{ type := MIRType.Object }],
        constructing := false }
      { retType := MIRType.Undefined }
      = (InliningStatus.NotInlined, BState.empty) ∧
    inlineUnsafePutElements
      { thisArg := { type := MIRType.Object },
        args := [{ type := MIRType.Object }, { type := MIRType.Int32 },
                 { type := MIRType.Int32 }],
        constructing := false }
      { retType := MIRType.Undefined }
      = (InliningStatus.NotInlined, BState.empty) ∧
    ∃ rest,
      (inlineUnsafePutElements
        { thisArg := { type := MIRType.Object },
          args := [{ type := MIRType.Object }, { type := MIRType.Int32 },
                   { type := MIRType.Int32 }],
          constructing := false }
        { retType := MIRType.Undefined, denseNative := fun _ _ => true }).2.events =
        EmitEvent.add (MNode.constantN JSVal.undefinedV)
          :: EmitEvent.push (Operand.node 0) :: rest ∧
      ∀ e ∈ rest, EmitEvent.isStoreAdd e = true := by
  refine ⟨?_, ?_, ?_⟩
  · exact unsafePutElements_validation_and_commit_order.1 _ _ (Or.inr (by decide))
  · exact unsafePutElements_validation_and_commit_order.2.1 _ _ (by rfl)
  · exact unsafePutElements_validation_and_commit_order.2.2 _ _ (by rfl)

/-- C4: every Atomics specialization (load, store, compareExchange,
fetch-binop) succeeds only when the receiver's shared typed-array
element type is Int8, Uint8, Int16, Uint16 or Int32 with inline return
type int32, or Uint32 with inline return type double; the preconditions
are characterized exactly, each Atomics path requires them, and
compareExchange on an Int8 shared array with a floating-point expected
return type yields `NotInlined`. -/
theorem atomics_allowlist_and_return_types :
    (∀ (ci : CallInfo) (ctx : Ctx) (t : ScalarType),
      atomicsMeetsPreconditions ci ctx = some t ↔
        ((ci.getArg 0).type = MIRType.Object ∧ (ci.getArg 1).type = MIRType.Int32 ∧
         ∃ tsi, (ci.getArg 0).ts = some tsi ∧ tsi.sharedTypedArrayType = t ∧
           (((t = ScalarType.Int8 ∨ t = ScalarType.Uint8 ∨ t = ScalarType.Int16 ∨
              t = ScalarType.Uint16 ∨ t = ScalarType.Int32) ∧ ctx.retType = MIRType.Int32) ∨
            (t = ScalarType.Uint32 ∧ ctx.retType = MIRType.Double)))) ∧
    (∀ (ci : CallInfo) (ctx : Ctx),
      (inlineAtomicsCompareExchange ci ctx).1 = InliningStatus.Inlined →
        atomicsMeetsPreconditions ci ctx ≠ none) ∧
    (∀ (ci : CallInfo) (ctx : Ctx),
      (inlineAtomicsLoad ci ctx).1 = InliningStatus.Inlined →
        atomicsMeetsPreconditions ci ctx ≠ none) ∧
    (∀ (ci : CallInfo) (ctx : Ctx),
      (inlineAtomicsStore ci ctx).1 = InliningStatus.Inlined →
        atomicsMeetsPreconditions ci ctx ≠ none) ∧
    (∀ (ci : CallInfo) (ctx : Ctx) (op : Nat),
      (inlineAtomicsBinop ci ctx op).1 = InliningStatus.Inlined →
        atomicsMeetsPreconditions ci ctx ≠ none) ∧
    (inlineAtomicsCompareExchange
      { thisArg := { type := MIRType.Object },
        args := [{ type := MIRType.Object,
                   ts := some { sharedTypedArrayType := ScalarType.Int8 } },
                 { type := MIRType.Int32 }, { type := MIRType.Int32 },
                 { type := MIRType.Int32 }],
        constructing := false }
      { retType := MIRType.Double }
      = (InliningStatus.NotInlined, BState.empty)) := by
  refine ⟨?_, ?_, ?_, ?_, ?_, rfl⟩
  · intro ci ctx t
    by_cases h1 : (ci.getArg 0).type = MIRType.Object
    · by_cases h2 : (ci.getArg 1).type = MIRType.Int32
      · rcases hts : (ci.getArg 0).ts with _ | tsi
        · simp [atomicsMeetsPreconditions, h1, h2, hts]
        · rcases hst : tsi.sharedTypedArrayType <;>
            simp [atomicsMeetsPreconditions, h1, h2, hts, hst] <;>
            (try split_ifs with hr) <;>
            (try simp_all) <;>
            (try aesop)
      · simp [atomicsMeetsPreconditions, h1, h2]
    · simp [atomicsMeetsPreconditions, h1]
  · intro ci ctx h
    intro hn
    unfold inlineAtomicsCompareExchange at h
    rw [hn] at h
    split_ifs at h <;> simp_all
  · intro ci ctx h
    intro hn
    unfold inlineAtomicsLoad at h
    rw [hn] at h
    split_ifs at h <;> simp_all
  · intro ci ctx h
    intro hn
    unfold inlineAtomicsStore at h
    rw [hn] at h
    split_ifs at h <;> simp_all
  · intro ci ctx op h
    intro hn
    unfold inlineAtomicsBinop at h
    rw [hn] at h
    split_ifs at h <;> simp_all

/-- C4 witness: an `Atomics.load` call on an Int8 shared typed array
with int32 inline return type is inlined, so by the theorem its
preconditions are met. -/
theorem atomics_allowlist_and_return_types_witness :
    atomicsMeetsPreconditions
      { thisArg := { type := MIRType.Object },
        args := [{ type := MIRType.Object,
                   ts := some { sharedTypedArrayType := ScalarType.Int8 } },
                 { type := MIRType.Int32 }],
        constructing := false }
      { retType := MIRType.Int32 } ≠ none := by
  exact atomics_allowlist_and_return_types.2.2.1 _ _ (by rfl)

/-- C5: `Math.pow` specialization with a numeric-constant exponent:
exponent 2 emits exactly one multiply node computing `x*x`; exponent 3
emits two chained multiplies; exponent 0.5 emits a square-root-with-
edge-case node and never a generic power node; exponents outside the
special-case set emit a generic power node; the result is cast to the
declared output type only when its type differs. -/
theorem mathPow_constant_exponent_specialization
    (th a0 a1 : MDef) (ctx : Ctx) (p : Rat)
    (hb : IsNumberType a0.type = true)
    (hp : IsNumberType a1.type = true)
    (ho : ctx.retType = MIRType.Int32 ∨ ctx.retType = MIRType.Double)
    (hc : a1.constVal = some (JSVal.doubleV p)) :
    (p = 2 →
      inlineMathPow { thisArg := th, args := [a0, a1], constructing := false } ctx
        = (InliningStatus.Inlined,
           { events := [EmitEvent.add (MNode.mul (Operand.arg 0) (Operand.arg 0) ctx.retType),
                        EmitEvent.push (Operand.node 0)], nAdds := 1 })) ∧
    (p = 3 →
      inlineMathPow { thisArg := th, args := [a0, a1], constructing := false } ctx
        = (InliningStatus.Inlined,
           { events := [EmitEvent.add (MNode.mul (Operand.arg 0) (Operand.arg 0) ctx.retType),
                        EmitEvent.add (MNode.mul (Operand.arg 0) (Operand.node 0) ctx.retType),
                        EmitEvent.push (Operand.node 1)], nAdds := 2 })) ∧
    (p = 1 / 2 →
      (ctx.retType = MIRType.Double →
        inlineMathPow { thisArg := th, args := [a0, a1], constructing := false } ctx
          = (InliningStatus.Inlined,
             { events := [EmitEvent.add (MNode.powHalf (Operand.arg 0)),
                          EmitEvent.push (Operand.node 0)], nAdds := 1 })) ∧
      (ctx.retType = MIRType.Int32 →
        inlineMathPow { thisArg := th, args := [a0, a1], constructing := false } ctx
          = (InliningStatus.Inlined,
             { events := [EmitEvent.add (MNode.powHalf (Operand.arg 0)),
                          EmitEvent.add (MNode.toInt32 (Operand.node 0)),
                          EmitEvent.push (Operand.node 1)], nAdds := 2 })) ∧
      (∀ e ∈ (inlineMathPow { thisArg := th, args := [a0, a1], constructing := false } ctx).2.events,
        ∀ b pw t, e ≠ EmitEvent.add (MNode.powN b pw t))) ∧
    (p ≠ 1 / 2 → p ≠ -(1 / 2) → p ≠ 1 → p ≠ 2 → p ≠ 3 → p ≠ 4 →
      (ctx.retType = MIRType.Double →
        inlineMathPow { thisArg := th, args := [a0, a1], constructing := false } ctx
          = (InliningStatus.Inlined,
             { events := [EmitEvent.add (MNode.powN (Operand.arg 0) (Operand.arg 1)
                            (if a1.type = MIRType.Float32 then MIRType.Double else a1.type)),
                          EmitEvent.push (Operand.node 0)], nAdds := 1 })) ∧
      (ctx.retType = MIRType.Int32 →
        inlineMathPow { thisArg := th, args := [a0, a1], constructing := false } ctx
          = (InliningStatus.Inlined,
             { events := [EmitEvent.add (MNode.powN (Operand.arg 0) (Operand.arg 1)
                            (if a1.type = MIRType.Float32 then MIRType.Double else a1.type)),
                          EmitEvent.add (MNode.toInt32 (Operand.node 0)),
                          EmitEvent.push (Operand.node 1)], nAdds := 2 }))) := by
  refine ⟨?_, ?_, ?_, ?_⟩
  · intro h2
    subst h2
    rcases ho with h | h <;>
      (norm_num [inlineMathPow, CallInfo.argc, CallInfo.getArg, MDef.isConstant, JSVal.isNumber,
            JSVal.toNumber, h, hb, hp, hc, BState.add, BState.push, BState.empty] <;>
       simp [BState.add, BState.push])
  · intro h3
    subst h3
    rcases ho with h | h <;>
      (norm_num [inlineMathPow, CallInfo.argc, CallInfo.getArg, MDef.isConstant, JSVal.isNumber,
            JSVal.toNumber, h, hb, hp, hc, BState.add, BState.push, BState.empty] <;>
       simp [BState.add, BState.push])
  · intro hhalf
    subst hhalf
    refine ⟨?_, ?_, ?_⟩
    · intro h
      (norm_num [inlineMathPow, CallInfo.argc, CallInfo.getArg, MDef.isConstant, JSVal.isNumber,
            JSVal.toNumber, h, hb, hp, hc, BState.add, BState.push, BState.empty] <;>
       simp [BState.add, BState.push])
    · intro h
      (norm_num [inlineMathPow, CallInfo.argc, CallInfo.getArg, MDef.isConstant, JSVal.isNumber,
            JSVal.toNumber, h, hb, hp, hc, BState.add, BState.push, BState.empty] <;>
       simp [BState.add, BState.push])
    · rcases ho with h | h <;>
        (norm_num [inlineMathPow, CallInfo.argc, CallInfo.getArg, MDef.isConstant, JSVal.isNumber,
              JSVal.toNumber, h, hb, hp, hc, BState.add, BState.push, BState.empty] <;>
         simp [BState.add, BState.push]) <;>
        aesop
  · intro n1 n2 n3 n4 n5 n6
    refine ⟨?_, ?_⟩
    · intro h
      (norm_num [inlineMathPow, CallInfo.argc, CallInfo.getArg, MDef.isConstant, JSVal.isNumber,
            JSVal.toNumber, h, hb, hp, hc, n1, n2, n3, n4, n5, n6,
            BState.add, BState.push, BState.empty] <;>
       simp [BState.add, BState.push])
    · intro h
      (norm_num [inlineMathPow, CallInfo.argc, CallInfo.getArg, MDef.isConstant, JSVal.isNumber,
            JSVal.toNumber, h, hb, hp, hc, n1, n2, n3, n4, n5, n6,
            BState.add, BState.push, BState.empty] <;>
       simp [BState.add, BState.push])

/-- C5 witness: `Math.pow(x, 2)` at an int32 base and int32 output type
compiles to the single multiply `x*x`. -/
theorem mathPow_constant_exponent_specialization_witness :
    inlineMathPow
      { thisArg := { type := MIRType.Object },
        args := [{ type := MIRType.Int32 },
                 { type := MIRType.Double, constVal := some (JSVal.doubleV 2) }],
        constructing := false }
      { retType := MIRType.Int32 }
      = (InliningStatus.Inlined,
         { events := [EmitEvent.add (MNode.mul (Operand.arg 0) (Operand.arg 0) MIRType.Int32),
                      EmitEvent.push (Operand.node 0)], nAdds := 1 }) := by
  exact (mathPow_constant_exponent_specialization
    { type := MIRType.Object } { type := MIRType.Int32 }
    { type := MIRType.Double, constVal := some (JSVal.doubleV 2) }
    { retType := MIRType.Int32 } 2 rfl rfl (Or.inl rfl) rfl).1 rfl

/-- C6: `charCodeAt` with a compile-time-constant receiver string and a
constant in-bounds int32 index folds to a single integer constant (the
character code; `66` for `"AB"` at index 1) with zero bounds-check
instructions; when the constant specialization declines, the general
path emits an explicit bounds-check instruction ahead of the
character-access instruction. -/
theorem charCodeAt_constant_folding_and_bounds_check :
    (∀ (thTy : MIRType) (chars : List Nat) (idx : Int) (aTy : MIRType) (ctx : Ctx),
      (thTy = MIRType.String ∨ thTy = MIRType.Value) →
      (aTy = MIRType.Int32 ∨ aTy = MIRType.Double) →
      ctx.retType = MIRType.Int32 →
      0 ≤ idx → idx < (chars.length : Int) →
      inlineStrCharCodeAt
        { thisArg := { type := thTy,
                       constVal := some (JSVal.strV { chars := chars, linear := true }) },
          args := [{ type := aTy, constVal := some (JSVal.int32V idx) }],
          constructing := false } ctx
        = (InliningStatus.Inlined,
           { events := [EmitEvent.add (MNode.constantN (JSVal.int32V (chars.getD idx.toNat 0))),
                        EmitEvent.push (Operand.node 0)],
             nAdds := 1 })) ∧
    (inlineStrCharCodeAt
        { thisArg := { type := MIRType.String,
                       constVal := some (JSVal.strV { chars := [65, 66], linear := true }) },
          args := [{ type := MIRType.Int32, constVal := some (JSVal.int32V 1) }],
          constructing := false }
        { retType := MIRType.Int32 }
        = (InliningStatus.Inlined,
           { events := [EmitEvent.add (MNode.constantN (JSVal.int32V 66)),
                        EmitEvent.push (Operand.node 0)],
             nAdds := 1 })) ∧
    (∀ (ci : CallInfo) (ctx : Ctx),
      ci.argc = 1 → ci.constructing = false → ctx.retType = MIRType.Int32 →
      (ci.thisArg.type = MIRType.String ∨ ci.thisArg.type = MIRType.Value) →
      ((ci.getArg 0).type = MIRType.Int32 ∨ (ci.getArg 0).type = MIRType.Double) →
      (inlineConstantCharCodeAt ci).1 = InliningStatus.NotInlined →
      inlineStrCharCodeAt ci ctx
        = (InliningStatus.Inlined,
           { events := [EmitEvent.add (MNode.toInt32 (Operand.arg 0)),
                        EmitEvent.add (MNode.stringLength Operand.thisA),
                        EmitEvent.add (MNode.boundsCheck (Operand.node 0) (Operand.node 1)),
                        EmitEvent.add (MNode.charCodeAt Operand.thisA (Operand.node 2)),
                        EmitEvent.push (Operand.node 3)],
             nAdds := 4 })) := by
  refine ⟨?_, ?_, ?_⟩
  · intro thTy chars idx aTy ctx hth ha hret h0 hlen
    have hnl : ¬(idx < 0) := not_lt.mpr h0
    have hge : ¬(idx ≥ (chars.length : Int)) := not_le.mpr hlen
    rcases hth with hth | hth <;> rcases ha with ha | ha <;>
      simp [inlineStrCharCodeAt, inlineConstantCharCodeAt, CallInfo.argc, CallInfo.getArg,
            MDef.isConstant, JSVal.isString, JSVal.isInt32, hth, ha, hret, hnl, hge,
            BState.add, BState.push, BState.empty]
  · rfl
  · intro ci ctx h1 h2 h3 h4 h5 h6
    rcases h4 with h4 | h4 <;> rcases h5 with h5 | h5 <;>
      simp [inlineStrCharCodeAt, h1, h2, h3, h4, h5, h6,
            BState.add, BState.push, BState.empty]

/-- C6 witness: the constant-fold part applied at `"AB".charCodeAt(1)`
(yielding the constant 66), and the general part at a non-constant
receiver (yielding the bounds-checked subgraph). -/
theorem charCodeAt_constant_folding_and_bounds_check_witness :
    inlineStrCharCodeAt
      { thisArg := { type := MIRType.String,
                     constVal := some (JSVal.strV { chars := [65, 66], linear := true }) },
        args := [{ type := MIRType.Int32, constVal := some (JSVal.int32V 1) }],
        constructing := false }
      { retType := MIRType.Int32 }
      = (InliningStatus.Inlined,
         { events := [EmitEvent.add (MNode.constantN (JSVal.int32V 66)),
                      EmitEvent.push (Operand.node 0)],
           nAdds := 1 }) ∧
    inlineStrCharCodeAt
      { thisArg := { type := MIRType.String },
        args := [{ type := MIRType.Int32 }],
        constructing := false }
      { retType := MIRType.Int32 }
      = (InliningStatus.Inlined,
         { events := [EmitEvent.add (MNode.toInt32 (Operand.arg 0)),
                      EmitEvent.add (MNode.stringLength Operand.thisA),
                      EmitEvent.add (MNode.boundsCheck (Operand.node 0) (Operand.node 1)),
                      EmitEvent.add (MNode.charCodeAt Operand.thisA (Operand.node 2)),
                      EmitEvent.push (Operand.node 3)],
           nAdds := 4 }) := by
  constructor
  · exact (charCodeAt_constant_folding_and_bounds_check.1
      MIRType.String [65, 66] 1 MIRType.Int32 { retType := MIRType.Int32 }
      (Or.inl rfl) (Or.inl rfl) rfl (by decide) (by decide))
  · exact (charCodeAt_constant_folding_and_bounds_check.2.2 _ _
      rfl rfl rfl (Or.inl rfl) (Or.inl rfl) rfl)

/-- C7 (amended): a float-typed min/max argument that is not a constant
dominated by the relevant int32 bound forces the whole classification
into the double domain; arguments `[int32, non-constant double]` produce
a double-domain binary chain; and for `min` with `[int32 a, constant
double c]` where `c` actually satisfies `c >= INT32_MAX`, the float
constant is dropped and the single remaining int32 operand
short-circuits to a truncation-preserving identity node. -/
theorem minmax_domain_partitioning :
    (∀ (maxF : Bool) (a : MDef),
      (a.type = MIRType.Double ∨ a.type = MIRType.Float32) →
      (a.isConstant = false ∨
      (¬((a.constVal.getD JSVal.undefinedV).toNumber ≥ 2147483647 ∧ maxF = false) ∧
       ¬((a.constVal.getD JSVal.undefinedV).toNumber ≤ -2147483648 ∧ maxF = true))) →
      ∀ (l : List MDef), a ∈ l →
      ∀ (i : Nat) (acc : List Nat) (rt : MIRType) (res : List Nat × MIRType),
        minMaxScanArgs maxF i l acc rt = some res → res.2 = MIRType.Double) ∧
    ((inlineMathMinMax
      { thisArg := { type := MIRType.Object },
        args := [{ type := MIRType.Int32 }, { type := MIRType.Double }],
        constructing := false }
      { retType := MIRType.Int32 } false).2.events
      = [EmitEvent.add (MNode.minmax (Operand.arg 0) (Operand.arg 1) MIRType.Double false),
         EmitEvent.push (Operand.node 0)]) ∧
    (∀ (th a : MDef) (c : Rat) (ctx : Ctx),
      a.type = MIRType.Int32 →
      ctx.retType = MIRType.Int32 →
      c ≥ (2147483647 : Rat) →
      inlineMathMinMax
        { thisArg := th,
          args := [a, { type := MIRType.Double, constVal := some (JSVal.doubleV c) }],
          constructing := false }
        ctx false
        = (InliningStatus.Inlined,
           { events := [EmitEvent.add (MNode.limitedTruncate (Operand.arg 0)),
                        EmitEvent.push (Operand.node 0)], nAdds := 1 })) := by
  refine ⟨?_, rfl, ?_⟩
  · intro maxF a hf hnd
    exact minMaxScanArgs_float_forces maxF a hf (minMaxFloatRt_forced maxF a hnd)
  · intro th a c ctx hty hret hge
    simp [inlineMathMinMax, minMaxScanArgs, minMaxFloatRt, CallInfo.argc, CallInfo.getArg,
          MDef.isConstant, JSVal.toNumber, hty, hret, hge, IsNumberType,
          BState.add, BState.push, BState.empty]

/-- C7 witness: a single non-constant double argument forces the double
domain in the scan, and `min(a, 3000000000.0)` with int32 `a` and int32
return type drops the constant and emits the identity node. -/
theorem minmax_domain_partitioning_witness :
    (([], MIRType.Double) : List Nat × MIRType).2 = MIRType.Double ∧
    inlineMathMinMax
      { thisArg := { type := MIRType.Object },
        args := [{ type := MIRType.Int32 },
                 { type := MIRType.Double, constVal := some (JSVal.doubleV 3000000000) }],
        constructing := false }
      { retType := MIRType.Int32 } false
      = (InliningStatus.Inlined,
         { events := [EmitEvent.add (MNode.limitedTruncate (Operand.arg 0)),
                      EmitEvent.push (Operand.node 0)], nAdds := 1 }) := by
  constructor
  · exact minmax_domain_partitioning.1 false { type := MIRType.Double }
      (Or.inl rfl) (Or.inl rfl) [{ type := MIRType.Double }] (by simp)
      0 [] MIRType.Int32 ([], MIRType.Double) rfl
  · exact minmax_domain_partitioning.2.2 { type := MIRType.Object } { type := MIRType.Int32 }
      3000000000 { retType := MIRType.Int32 } rfl rfl (by norm_num)

/-- C8: `Array.prototype.concat`, on call sites meeting the structural
preconditions, specializes exactly when every element type of each
argument type object is already contained in the receiver's element
type-set: receiver `{int,string}` versus argument `{int}` succeeds,
receiver `{int}` versus argument `{int,string}` returns `NotInlined`. -/
theorem arrayConcat_element_subset_criterion (em : Nat → List JSTypeTag)
    (argObjs : List (Option Nat)) :
    ((inlineArrayConcat
        { thisArg := { type := MIRType.Object,
                       ts := some { knownClass := some ClassId.arrayObj, objects := [some 1000] } },
          args := [{ type := MIRType.Object,
                     ts := some { knownClass := some ClassId.arrayObj, objects := argObjs } }],
          constructing := false }
        { retType := MIRType.Object,
          unknownProps := fun _ => false,
          elemTypes := em,
          resHasObjType := fun _ => true,
          concatTemplateType := some 1000 }).1 = InliningStatus.Inlined ↔
      ∀ k, some k ∈ argObjs → ∀ t ∈ em k, t ∈ em 1000) ∧
    ((inlineArrayConcat
        { thisArg := { type := MIRType.Object,
                       ts := some { knownClass := some ClassId.arrayObj, objects := [some 1000] } },
          args := [{ type := MIRType.Object,
                     ts := some { knownClass := some ClassId.arrayObj, objects := [some 1] } }],
          constructing := false }
        { retType := MIRType.Object,
          unknownProps := fun _ => false,
          elemTypes := fun n => if n = 1000 then [JSTypeTag.intTag, JSTypeTag.stringTag]
                                else [JSTypeTag.intTag],
          resHasObjType := fun _ => true,
          concatTemplateType := some 1000 }).1 = InliningStatus.Inlined) ∧
    ((inlineArrayConcat
        { thisArg := { type := MIRType.Object,
                       ts := some { knownClass := some ClassId.arrayObj, objects := [some 1000] } },
          args := [{ type := MIRType.Object,
                     ts := some { knownClass := some ClassId.arrayObj, objects := [some 1] } }],
          constructing := false }
        { retType := MIRType.Object,
          unknownProps := fun _ => false,
          elemTypes := fun n => if n = 1000 then [JSTypeTag.intTag]
                                else [JSTypeTag.intTag, JSTypeTag.stringTag],
          resHasObjType := fun _ => true,
          concatTemplateType := some 1000 }).1 = InliningStatus.NotInlined) := by
  refine ⟨?_, by rfl, by rfl⟩
  simp [inlineArrayConcat, CallInfo.argc, CallInfo.getArg, TypeSetInfo.objectCount,
        BState.add, BState.push, BState.empty]
  constructor
  · intro hinl
    by_cases hex : (∃ x ∈ argObjs, (match x with
        | none => true
        | some argType => knownSubset (em argType) (em 1000)) = false)
    · rw [if_pos hex] at hinl
      simp at hinl
    · push_neg at hex
      intro k hk t ht
      have hm := hex (some k) hk
      have hkn : knownSubset (em k) (em 1000) = true := by
        cases hkn : knownSubset (em k) (em 1000)
        · exact absurd hkn hm
        · rfl
      simp [knownSubset, List.all_eq_true] at hkn
      simpa using hkn t ht
  · intro hall
    have hex : ¬ (∃ x ∈ argObjs, (match x with
        | none => true
        | some argType => knownSubset (em argType) (em 1000)) = false) := by
      rintro ⟨x, hx, hm⟩
      rcases x with _ | k
      · simp at hm
      · have hkn : knownSubset (em k) (em 1000) = true := by
          simp [knownSubset, List.all_eq_true]
          intro t ht
          simpa using hall k hx t ht
        simp only [] at hm
        rw [hkn] at hm
        cases hm
    rw [if_neg hex]

/-- C8 witness: the subset criterion applied with a concrete element
map, extracting the claim's `{int,string}` versus `{int}` example. -/
theorem arrayConcat_element_subset_criterion_witness :
    (inlineArrayConcat
        { thisArg := { type := MIRType.Object,
                       ts := some { knownClass := some ClassId.arrayObj, objects := [some 1000] } },
          args := [{ type := MIRType.Object,
                     ts := some { knownClass := some ClassId.arrayObj, objects := [some 1] } }],
          constructing := false }
        { retType := MIRType.Object,
          unknownProps := fun _ => false,
          elemTypes := fun n => if n = 1000 then [JSTypeTag.intTag, JSTypeTag.stringTag]
                                else [JSTypeTag.intTag],
          resHasObjType := fun _ => true,
          concatTemplateType := some 1000 }).1 = InliningStatus.Inlined := by
  exact (arrayConcat_element_subset_criterion
    (fun n => if n = 1000 then [JSTypeTag.intTag, JSTypeTag.stringTag]
              else [JSTypeTag.intTag]) [some 1]).2.1

/-- C9: the shared class-membership predicate specializer, when the
single object argument's type-set has a statically known class, pushes a
compile-time boolean constant recording whether that class is one of the
up-to-four candidates and emits no runtime class-check instructions. -/
theorem hasClass_known_class_constant_folding
    (th a : MDef) (ctx : Ctx) (tsi : TypeSetInfo) (k c1 : ClassId) (c2 c3 c4 : Option ClassId)
    (hty : a.type = MIRType.Object)
    (hret : ctx.retType = MIRType.Boolean)
    (hts : a.ts = some tsi)
    (hk : tsi.knownClass = some k) :
    inlineHasClass { thisArg := th, args := [a], constructing := false } ctx c1 c2 c3 c4
      = (InliningStatus.Inlined,
         { events := [EmitEvent.add (MNode.constantN (JSVal.boolV
              (k = c1 || some k = c2 || some k = c3 || some k = c4))),
                      EmitEvent.push (Operand.node 0)],
           nAdds := 1 })
    ∧ ∀ e ∈ (inlineHasClass { thisArg := th, args := [a], constructing := false } ctx c1 c2 c3 c4).2.events,
        ∀ o c, e ≠ EmitEvent.add (MNode.hasClassN o c) := by
  have h1 : inlineHasClass { thisArg := th, args := [a], constructing := false } ctx c1 c2 c3 c4
      = (InliningStatus.Inlined,
         { events := [EmitEvent.add (MNode.constantN (JSVal.boolV
              (k = c1 || some k = c2 || some k = c3 || some k = c4))),
                      EmitEvent.push (Operand.node 0)],
           nAdds := 1 }) := by
    simp [inlineHasClass, CallInfo.argc, CallInfo.getArg, hty, hret, hts, hk,
          BState.pushConstant, BState.add, BState.push, BState.empty]
  refine ⟨h1, ?_⟩
  rw [h1]
  intro e he o c
  simp at he
  rcases he with he | he <;> subst he <;> simp

/-- C9 witness: `ObjectIsTypedObject`-style membership on an argument
statically known to be an outline transparent typed object folds to the
constant `true`. -/
theorem hasClass_known_class_constant_folding_witness :
    inlineHasClass
      { thisArg := { type := MIRType.Object },
        args := [{ type := MIRType.Object,
                   ts := some { knownClass := some ClassId.outlineTransparentTO } }],
        constructing := false }
      { retType := MIRType.Boolean }
      ClassId.outlineTransparentTO (some ClassId.outlineOpaqueTO)
      (some ClassId.inlineTransparentTO) (some ClassId.inlineOpaqueTO)
      = (InliningStatus.Inlined,
         { events := [EmitEvent.add (MNode.constantN (JSVal.boolV true)),
                      EmitEvent.push (Operand.node 0)],
           nAdds := 1 }) := by
  exact (hasClass_known_class_constant_folding
    { type := MIRType.Object }
    { type := MIRType.Object, ts := some { knownClass := some ClassId.outlineTransparentTO } }
    { retType := MIRType.Boolean }
    { knownClass := some ClassId.outlineTransparentTO }
    ClassId.outlineTransparentTO ClassId.outlineTransparentTO
    (some ClassId.outlineOpaqueTO) (some ClassId.inlineTransparentTO)
    (some ClassId.inlineOpaqueTO) rfl rfl rfl rfl).1

/-- C10: `Array.prototype.splice` is specialized only for a
non-constructing call with exactly two int32 arguments whose result the
bytecode discards; the inlined form emits the splice instruction and
pushes the constant undefined; a used (non-popped) result yields
`NotInlined`. -/
theorem arraySplice_only_when_popped :
    (∀ (ci : CallInfo) (ctx : Ctx),
      (inlineArraySplice ci ctx).1 = InliningStatus.Inlined →
        ci.argc = 2 ∧ ci.constructing = false ∧
        (ci.getArg 0).type = MIRType.Int32 ∧ (ci.getArg 1).type = MIRType.Int32 ∧
        ctx.bytecodeIsPopped = true ∧
        (inlineArraySplice ci ctx).2.events =
          [EmitEvent.add (MNode.arraySpliceN Operand.thisA (Operand.arg 0) (Operand.arg 1)),
           EmitEvent.add (MNode.constantN JSVal.undefinedV),
           EmitEvent.push (Operand.node 1)]) ∧
    (∀ (ci : CallInfo) (ctx : Ctx),
      ctx.bytecodeIsPopped = false →
        (inlineArraySplice ci ctx).1 = InliningStatus.NotInlined) := by
  constructor
  · intro ci ctx h
    unfold inlineArraySplice at h ⊢
    split_ifs at h ⊢ with h1 h2 h3 h4 h5 h6 <;>
      simp_all [BState.pushConstant, BState.add, BState.push, BState.empty]
  · intro ci ctx h
    unfold inlineArraySplice
    split_ifs with h1 h2 h3 h4 h5 h6 <;> simp_all

/-- C10 witness: a popped two-int32-argument splice call is inlined (so
the theorem yields its shape facts), and the same call with a used
result is not inlined. -/
theorem arraySplice_only_when_popped_witness :
    (inlineArraySplice
      { thisArg := { type := MIRType.Object },
        args := [{ type := MIRType.Int32 }, { type := MIRType.Int32 }],
        constructing := false }
      { retType := MIRType.Object, bytecodeIsPopped := true }).1 = InliningStatus.Inlined ∧
    ({ retType := MIRType.Object, bytecodeIsPopped := true : Ctx }).bytecodeIsPopped = true ∧
    (inlineArraySplice
      { thisArg := { type := MIRType.Object },
        args := [{ type := MIRType.Int32 }, { type := MIRType.Int32 }],
        constructing := false }
      { retType := MIRType.Object, bytecodeIsPopped := false }).1 = InliningStatus.NotInlined := by
  refine ⟨rfl, ?_, ?_⟩
  · exact (arraySplice_only_when_popped.1
      { thisArg := { type := MIRType.Object },
        args := [{ type := MIRType.Int32 }, { type := MIRType.Int32 }],
        constructing := false }
      { retType := MIRType.Object, bytecodeIsPopped := true } rfl).2.2.2.2.1
  · exact arraySplice_only_when_popped.2
      { thisArg := { type := MIRType.Object },
        args := [{ type := MIRType.Int32 }, { type := MIRType.Int32 }],
        constructing := false }
      { retType := MIRType.Object, bytecodeIsPopped := false } rfl

end MCallOptimize
